import Mathlib

/-!
Verification model of the heliospectra light-controller (main.go).

The Go program drives a Heliospectra light fixture over a telnet-style,
prompt-terminated line protocol, either polling it for metrics or replaying a
timestamped conditions (schedule) file.  The definitions below are a shallow
embedding of the program:

* network reads are modelled by passing the raw byte stream a read would
  deliver as a `String` argument;
* Go regexp matching on the fixed patterns of main.go is modelled by
  structurally recursive tokenizers over `List Char` (the patterns only use
  ASCII word/digit classes, so maximal-run tokenization is exact);
* `float64` arithmetic is modelled exactly over `ℚ` (results here only depend
  on values that are exactly representable);
* Go runtime panics (out-of-range slicing, nil dereference) are modelled by
  `Option.none` / dedicated result constructors;
* wall-clock time is modelled by a `Nat` instant that advances to each
  schedule entry's due time when the runner sleeps.
-/

namespace Helio

/-! ### Character classes of the Go regexps -/

/-- Character class of the Go regexp word class (ASCII letters, digits and
underscore), as used by the patterns of main.go. -/
def isWordChar (c : Char) : Bool := c.isAlphanum || c == '_'

/-- Maximal-run tokenizer: splits a character list into its maximal runs of
word characters.  This is exactly what FindAllString with the Go pattern of
word tokens returns on a string, in order. -/
def wordSplit : List Char → List Char → List (List Char)
  | [], acc => if acc.isEmpty then [] else [acc.reverse]
  | c :: rest, acc =>
    if isWordChar c then wordSplit rest (c :: acc)
    else if acc.isEmpty then wordSplit rest acc
    else acc.reverse :: wordSplit rest ([] : List Char)

/-- All word tokens of a string (model of matchStrings.FindAllString data -1
for the pattern of maximal word runs). -/
def wordTokens (s : String) : List String :=
  (wordSplit s.toList []).map (fun cs => ⟨cs⟩)

/-- All integer tokens of a string: the maximal word runs consisting solely of
decimal digits (model of matchInts.FindAllString data -1; a digit run inside a
longer word run has no word boundary around it and is not matched). -/
def intTokens (s : String) : List String :=
  (wordTokens s).filter (fun t => t.toList.all Char.isDigit)

/-! ### Device exchange: execCommand -/

/-- Model of conn.ReadString with the prompt delimiter: the shortest prefix of
the incoming stream up to and including the first prompt character, or `none`
when the stream holds no prompt (the read errors). -/
def readToPromptAux : List Char → Option (List Char)
  | [] => none
  | c :: rest =>
    if c == '>' then some [c] else (readToPromptAux rest).map (fun tl => c :: tl)

/-- Model of conn.ReadString up to the prompt, on strings. -/
def readToPrompt (s : String) : Option String :=
  (readToPromptAux s.toList).map (fun cs => ⟨cs⟩)

/-- Whether the literal success token of the protocol occurs anywhere in the
text (model of matchOK.MatchString). -/
def hasOK : List Char → Bool
  | [] => false
  | 'O' :: 'K' :: _ => true
  | _ :: rest => hasOK rest

/-- The character set of unicode.IsSpace, which strings.TrimSpace trims: the
ASCII whitespace controls and space, next-line, no-break space, ogham space
mark, the en-quad..hair-space block, line and paragraph separators, narrow
no-break space, medium mathematical space and ideographic space. -/
def goIsSpace (c : Char) : Bool :=
  (9 ≤ c.toNat && c.toNat ≤ 13) || c.toNat == 32 || c.toNat == 0x85 ||
  c.toNat == 0xA0 || c.toNat == 0x1680 ||
  (0x2000 ≤ c.toNat && c.toNat ≤ 0x200A) || c.toNat == 0x2028 ||
  c.toNat == 0x2029 || c.toNat == 0x202F || c.toNat == 0x205F ||
  c.toNat == 0x3000

/-- Model of strings.TrimSpace: drops unicode.IsSpace characters from both
ends. -/
def goTrim (s : String) : String :=
  ⟨((s.toList.dropWhile goIsSpace).reverse.dropWhile goIsSpace).reverse⟩

/-! ### fmt formatting with no operands

The Go code builds the protocol error with fmt.Errorf on the trimmed response
text alone, so fmt interprets that text as a format string with an empty
operand list.  The definitions below follow doPrintf of fmt/print.go
specialised to zero operands: text is copied verbatim up to each percent sign;
a directive then parses flags, an optional bracketed operand index, width and
precision (a star consumes a missing operand and emits the bad-width or
bad-precision marker), and finally the verb, which for a double percent emits
a literal percent, for a bad operand index emits the bad-index marker, and
otherwise emits the missing-operand marker; a directive running off the end
of the text emits the no-verb marker. -/

/-- Flag characters of a fmt directive. -/
def fmtFlag (c : Char) : Bool :=
  c == '#' || c == '0' || c == '-' || c == '+' || c == ' '

/-- Model of parsenum of fmt/print.go: consume a decimal run, reporting
whether at least one digit was seen; a value growing past the million guard
consumes the rest of the text and reports no number (`none`). -/
def parsenumAux : List Char → Nat → Bool → Option (Bool × List Char)
  | [], _, isnum => some (isnum, [])
  | c :: rest, num, isnum =>
    if c.isDigit then
      if num > 1000000 then none
      else parsenumAux rest (num * 10 + (c.toNat - 48)) true
    else some (isnum, c :: rest)

/-- Scan of parseArgNumber after the opening bracket: finds the closing
bracket, counting the characters consumed (bracket included) and whether the
bracket pair holds a well-formed number. -/
def scanArgIdx : List Char → Nat → Nat → Bool → Bool → Nat × Bool
  | [], _, _, _, _ => (1, false)
  | c :: rest, cnt, num, seen, valid =>
    if c == ']' then (cnt + 1, seen && valid)
    else if c.isDigit then
      if num > 1000000 then scanArgIdx rest (cnt + 1) num seen false
      else scanArgIdx rest (cnt + 1) (num * 10 + (c.toNat - 48)) true valid
    else scanArgIdx rest (cnt + 1) num seen false

/-- Model of parseArgNumber of fmt/print.go, on text starting at the opening
bracket: the number of characters consumed and whether a well-formed index was
read. -/
def parseArgNumberGo (cs : List Char) : Nat × Bool :=
  if cs.length < 3 then (1, false)
  else scanArgIdx (cs.drop 1) 1 0 false true

/-- Model of argNumber of fmt/print.go with no operands: a bracketed index
can never be in range, so meeting one clears the good-argument flag; the
second component is the found flag it reports. -/
def argNumberGo (good : Bool) (cs : List Char) : Bool × Bool × List Char :=
  match cs with
  | '[' :: _ =>
    let w := parseArgNumberGo cs
    (false, w.2, cs.drop w.1)
  | _ => (good, false, cs)

/-- One directive of doPrintf with no operands, on the text after the percent
sign: returns the emitted characters, the remaining text, and whether
formatting stops (the no-verb case).  Width and precision digits are parsed
and dropped; each star consumes a missing operand and emits its marker
immediately. -/
def fmtDirective (cs0 : List Char) : List Char × List Char × Bool :=
  let cs1 := cs0.dropWhile fmtFlag
  let a1 := argNumberGo true cs1
  let step2 : List Char × Bool × Bool × List Char :=
    match a1.2.2 with
    | '*' :: r => ("%!(BADWIDTH)".toList, a1.1, false, r)
    | cs2 =>
      match parsenumAux cs2 0 false with
      | none => ([], a1.1, a1.2.1, [])
      | some (isnum, r) =>
        ([], if a1.2.1 && isnum then false else a1.1, a1.2.1, r)
  let step3 : List Char × Bool × Bool × List Char :=
    match step2.2.2.2 with
    | '.' :: c2 :: r1 =>
      let good' := if step2.2.2.1 then false else step2.2.1
      let aP := argNumberGo good' (c2 :: r1)
      (match aP.2.2 with
       | '*' :: r3 => (step2.1 ++ "%!(BADPREC)".toList, aP.1, false, r3)
       | r2 =>
         match parsenumAux r2 0 false with
         | none => (step2.1, aP.1, aP.2.1, [])
         | some (_, r3) => (step2.1, aP.1, aP.2.1, r3))
    | cs3 => (step2.1, step2.2.1, step2.2.2.1, cs3)
  let step4 : List Char × Bool × List Char :=
    if step3.2.2.1 then (step3.1, step3.2.1, step3.2.2.2)
    else
      let aL := argNumberGo step3.2.1 step3.2.2.2
      (step3.1, aL.1, aL.2.2)
  match step4.2.2 with
  | [] => (step4.1 ++ "%!(NOVERB)".toList, [], true)
  | v :: r =>
    if v == '%' then (step4.1 ++ ['%'], r, false)
    else if step4.2.1 then (step4.1 ++ '%' :: '!' :: v :: "(MISSING)".toList, r, false)
    else (step4.1 ++ '%' :: '!' :: v :: "(BADINDEX)".toList, r, false)

/-- The loop of doPrintf with no operands.  The fuel only serves structural
termination: one unit is spent per step and every step consumes at least one
character, so fuel equal to the text length never runs out (the zero-fuel
fallback returns the text unchanged). -/
def fmtRun : Nat → List Char → List Char
  | 0, cs => cs
  | fuel + 1, cs =>
    match cs with
    | [] => []
    | c :: rest =>
      if c == '%' then
        let d := fmtDirective rest
        if d.2.2 then d.1 else d.1 ++ fmtRun fuel d.2.1
      else c :: fmtRun fuel rest

/-- Model of fmt.Errorf applied to a message string and no operands: the
message interpreted as a format string over an empty operand list. -/
def errorfNoArgs (s : String) : String := ⟨fmtRun s.toList.length s.toList⟩

/-- Failure modes of a device exchange in the Go program. -/
inductive GoErr where
  /-- The read returned an error (no prompt arrived). -/
  | ioError
  /-- The response lacked the success token; carries the error message built
  from the trimmed response text. -/
  | protocolError (msg : String)
  /-- strconv rejected a token (64-bit overflow is the only reachable case). -/
  | parseError
  /-- A Go runtime panic (out-of-range slice of an empty match list). -/
  | panicked
deriving DecidableEq, Repr

/-- Model of execCommand: write the command, read the stream up to the first
prompt, demand the success token somewhere in the (untrimmed) chunk, and
return the trimmed chunk; a chunk without the success token becomes an error
whose message is fmt.Errorf applied to the trimmed chunk with no operands, so
a chunk containing a percent sign is rewritten by the formatter.  The
argument is the raw byte stream the device delivers after the command is
written. -/
def execCommand (stream : String) : Except GoErr String :=
  match readToPrompt stream with
  | none => .error .ioError
  | some datad =>
    if hasOK datad.toList then .ok (goTrim datad)
    else .error (.protocolError (errorfNoArgs (goTrim datad)))

/-! ### Integer / string response parsing: chompAllInts, chompAllStrings -/

/-- Numeric value of a digit string (the tokens fed to it are all-digit). -/
def natOfDigits (cs : List Char) : Nat :=
  cs.foldl (fun n c => n * 10 + (c.toNat - 48)) 0

/-- Largest value strconv.ParseInt with 64-bit size accepts. -/
def int64Max : Nat := 9223372036854775807

/-- Model of strconv.ParseInt base 10, bit size 64, on an all-digit token:
errors only on overflow. -/
def parseIntTok (t : String) : Except GoErr Int :=
  if natOfDigits t.toList ≤ int64Max then .ok (natOfDigits t.toList : Int)
  else .error .parseError

/-- Parses a list of digit tokens, stopping at the first failure, as the loop
of chompAllInts does. -/
def mapParseInts : List String → Except GoErr (List Int)
  | [] => .ok []
  | t :: ts =>
    match parseIntTok t with
    | .error e => .error e
    | .ok i =>
      match mapParseInts ts with
      | .error e => .error e
      | .ok is => .ok (i :: is)

/-- Model of chompAllInts: run the exchange, match all integer tokens of the
response, then iterate over the tail of the match list (the Go code slices the
match list from index 1; when the response holds no integer token the slice of
the nil match list panics). -/
def chompAllInts (stream : String) : Except GoErr (List Int) :=
  match execCommand stream with
  | .error e => .error e
  | .ok data =>
    match intTokens data with
    | [] => .error .panicked
    | _ :: rest => mapParseInts rest

/-- Model of chompAllStrings: run the exchange, match all word tokens of the
response, and return the tail of the match list (index-1 slice; a response
with no word token at all would panic the slice, like chompAllInts). -/
def chompAllStrings (stream : String) : Except GoErr (List String) :=
  match execCommand stream with
  | .error e => .error e
  | .ok data =>
    match wordTokens data with
    | [] => .error .panicked
    | _ :: rest => .ok rest

/-! ### Value codec: minMax and the integer encoding of setMany -/

/-- Model of the Go conversion int(x) on a float64 value: truncation toward
zero (exact on the rational model). -/
def ratTruncToInt (q : ℚ) : ℤ := q.num.tdiv (q.den : ℤ)

/-- Model of minMax: clamp an integer into the closed device range. -/
def minMax (v : ℤ) : ℤ := min (max v 0) 1000

/-- Per-channel encoding performed inside setMany: multiply by the configured
multiplier, truncate to an integer, clamp into the device range.  Total: no
input makes it error. -/
def goEncode (mult x : ℚ) : ℤ := minMax (ratTruncToInt (x * mult))

/-- Modelled from the spec: the encoding as the spec words it, rounding
(nearest integer) before clamping, for comparison with goEncode. -/
def encodeSpec (mult x : ℚ) : ℤ := minMax (round (x * mult))

/-- The integer vector setMany encodes and sends for a value list. -/
def setManyVec (mult : ℚ) (values : List ℚ) : List ℤ :=
  values.map (goEncode mult)

/-- Model of strings.Join with a single-space separator. -/
def joinSpace : List String → String
  | [] => ""
  | [s] => s
  | s :: rest => s ++ " " ++ joinSpace rest

/-- The full command text setMany writes to the device. -/
def setManyCommand (mult : ℚ) (values : List ℚ) : String :=
  "setWlsRelPower " ++ joinSpace ((setManyVec mult values).map toString)

/-! ### Schedule row field parsing: the float-extraction regexp -/

/-- Maximal digit run at the head of a character list. -/
def digitRun (cs : List Char) : List Char := cs.takeWhile Char.isDigit

/-- Match of the Go float pattern anchored at this position: first the
decimal alternative (optional sign, digits, a dot, at least one digit), then
the plain digit-run alternative; `none` when neither matches here. -/
def floatMatchAt (cs : List Char) : Option (List Char) :=
  let intAlt : Option (List Char) :=
    match cs with
    | c :: _ => if c.isDigit then some (digitRun cs) else none
    | [] => none
  let (sgn, rest) :=
    match cs with
    | c :: tl => if c == '+' || c == '-' then ([c], tl) else (([] : List Char), cs)
    | [] => ([], [])
  let d1 := digitRun rest
  match rest.drop d1.length with
  | '.' :: tl =>
    let d2 := digitRun tl
    if d2.isEmpty then intAlt else some (sgn ++ d1 ++ '.' :: d2)
  | _ => intAlt

/-- Leftmost match of the float pattern (model of matchFloat.FindString;
`none` stands for the empty no-match result, which ParseFloat then rejects). -/
def findFloat : List Char → Option (List Char)
  | [] => none
  | c :: tl =>
    match floatMatchAt (c :: tl) with
    | some m => some m
    | none => findFloat tl

/-- Exact rational value of a matched decimal literal (strconv.ParseFloat is
modelled exactly; the match shape guarantees it parses). -/
def ratOfMatch (cs : List Char) : ℚ :=
  let (sgn, rest) :=
    match cs with
    | '-' :: tl => ((-1 : ℚ), tl)
    | '+' :: tl => ((1 : ℚ), tl)
    | _ => ((1 : ℚ), cs)
  let ip := digitRun rest
  match rest.drop ip.length with
  | '.' :: tl => sgn * ((natOfDigits ip : ℚ) + (natOfDigits tl : ℚ) / ((10 : ℚ) ^ tl.length))
  | _ => sgn * (natOfDigits ip : ℚ)

/-- Value a schedule field contributes in runStuff: the first float-pattern
match parsed, or the zero the slot keeps when no match parses. -/
def parseLightField (s : String) : ℚ :=
  match findFloat s.toList with
  | none => 0
  | some m => ratOfMatch m

/-! ### Telemetry: writeMetrics -/

/-- Model of strconv.ParseInt base 10, bit size 64 on an arbitrary label
string: optional sign, then at least one digit, within the 64-bit range. -/
def parseGoInt (s : String) : Option Int :=
  let (sgn, digits) :=
    match s.toList with
    | '+' :: tl => ((1 : Int), tl)
    | '-' :: tl => ((-1 : Int), tl)
    | cs => ((1 : Int), cs)
  if digits.isEmpty then none
  else if digits.all Char.isDigit then
    let v : Int := sgn * (natOfDigits digits : Int)
    if -(2 ^ 63) ≤ v ∧ v ≤ 2 ^ 63 - 1 then some v else none
  else none

/-- One telegraf measurement record. -/
structure Measurement where
  name : String
  fields : List (String × ℚ)
  tags : List (String × String)
deriving DecidableEq, Repr

/-- Field list of a measurement: one field per channel whose label parses as
an integer, named with a k suffix for the distinguished 6500 label and an nm
suffix otherwise; unparseable labels are logged and skipped. -/
def mkFields (wavelengths : List String) (lightValues : List ℚ) : List (String × ℚ) :=
  (wavelengths.zip lightValues).filterMap (fun p =>
    match parseGoInt p.1 with
    | none => none
    | some wl =>
      if wl = 6500 then some (toString wl ++ "k", p.2)
      else some (toString wl ++ "nm", p.2))

/-- Optional identity tags, added only when nonempty. -/
def mkTags (host group user : String) : List (String × String) :=
  (if host = "" then [] else [("host", host)]) ++
  (if group = "" then [] else [("group", group)]) ++
  (if user = "" then [] else [("user", user)])

/-- Model of writeMetrics: returns the measurements written over UDP together
with the error result of the call.  With metrics disabled it is a no-op that
succeeds; otherwise a failed client creation or a label/value length mismatch
returns an error before anything is written (the UDP write itself has its
error discarded by the Go code, so it cannot fail the call). -/
def writeMetrics (noMetrics udpOk : Bool) (host group user : String)
    (wavelengths : List String) (lightValues : List ℚ) :
    List Measurement × Option String :=
  if noMetrics then ([], none)
  else if !udpOk then ([], some "telegraf client creation failed")
  else if wavelengths.length ≠ lightValues.length then
    ([], some "wavelengths and light values differ")
  else ([⟨"helio-light", mkFields wavelengths lightValues,
          mkTags host group user⟩], none)

/-! ### One schedule-entry execution: runStuff -/

/-- Environment of one runStuff call: the process configuration together with
the externally determined outcomes of its network interactions (dial, banner
skip, the byte streams the device answers to getWl and setWlsRelPower, and the
per-attempt outcome of telegraf client creation). -/
structure StuffEnv where
  mult : ℚ
  noMetrics : Bool
  host : String
  group : String
  user : String
  dialOk : Bool
  skipOk : Bool
  wlStream : String
  setStream : String
  udpOk : Nat → Bool

/-- Observable outcome of one runStuff call that returned (did not panic):
the returned Bool, the encoded vector sent with the set command when one was
issued, whether the count-mismatch warning was logged, and the measurements
written to telemetry. -/
structure StuffOutcome where
  ok : Bool
  sent : Option (List ℤ)
  warned : Bool
  writes : List Measurement
deriving DecidableEq

/-- The up-to-five writeMetrics attempts at the end of runStuff: an error is
logged and the attempt retried after a fixed delay, the first success stops
the loop; the fuel starts at 5. -/
def telemetryLoop (env : StuffEnv) (wavelengths : List String)
    (lightValues : List ℚ) : Nat → Nat → List Measurement
  | _, 0 => []
  | attempt, fuel + 1 =>
    match writeMetrics env.noMetrics (env.udpOk attempt) env.host env.group env.user
        wavelengths lightValues with
    | (ws, none) => ws
    | (ws, some _) => ws ++ telemetryLoop env wavelengths lightValues (attempt + 1) fuel

/-- Model of runStuff on the comma-split row fields: slice off the four
leading columns (Go panics when fewer than four exist — the `none` result),
extract a float from each remaining field, dial and prime the connection,
fetch the wavelength labels, send the encoded values truncated to the shorter
of the two counts (logging a warning only when the value count is not already
the minimum), then attempt telemetry and return true. -/
def runStuffGo (env : StuffEnv) (lineSplit : List String) : Option StuffOutcome :=
  if lineSplit.length < 4 then none
  else
    let lightValues := (lineSplit.drop 4).map parseLightField
    if !env.dialOk then some ⟨false, none, false, []⟩
    else if !env.skipOk then some ⟨false, none, false, []⟩
    else
      match chompAllStrings env.wlStream with
      | .error _ => some ⟨false, none, false, []⟩
      | .ok wavelengths =>
        let minLength := min wavelengths.length lightValues.length
        let warned := lightValues.length != minLength
        let sent := setManyVec env.mult (lightValues.take minLength)
        match execCommand env.setStream with
        | .error _ => some ⟨false, some sent, warned, []⟩
        | .ok _ =>
          some ⟨true, some sent, warned,
                telemetryLoop env wavelengths lightValues 0 5⟩

/-- Success value of a runStuff call: what the retry loop of runConditions
branches on. -/
def stuffOf (env : StuffEnv) (lineSplit : List String) : Option Bool :=
  (runStuffGo env lineSplit).map StuffOutcome.ok

/-- A device and configuration on which every runStuff interaction succeeds. -/
def demoEnv : StuffEnv where
  mult := 10
  noMetrics := false
  host := ""
  group := ""
  user := ""
  dialOk := true
  skipOk := true
  wlStream := "getWl OK 400 420 660\n>"
  setStream := "setWlsRelPower OK\n>"
  udpOk := fun _ => true

/-- Like demoEnv but every telegraf client creation fails, so all five
telemetry attempts of a runStuff call fail. -/
def demoFailEnv : StuffEnv := { demoEnv with udpOk := fun _ => false }

/-! ### Poll mode: the runMetrics closure of main -/

/-- External outcomes of one poll tick. -/
structure PollDevice where
  dialOk : Bool
  skipOk : Bool
  powerStream : String
  wlStream : String

/-- What one poll tick does. -/
inductive TickResult where
  /-- A Go runtime panic escaped the tick (crashing the process). -/
  | panicked
  /-- The tick returned early after logging an error. -/
  | abandoned
  /-- The tick read and forwarded labels and power values. -/
  | completed (wavelengths : List String) (power : List ℚ)
deriving Repr

/-- Model of getPower: parse the integer power levels and divide by the
multiplier. -/
def getPowerGo (mult : ℚ) (stream : String) : Except GoErr (List ℚ) :=
  match chompAllInts stream with
  | .error e => .error e
  | .ok vs => .ok (vs.map (fun v => (v : ℚ) / mult))

/-- Model of the runMetrics closure: on a dial error the Go code logs but
does not return, then calls SkipUntil on the nil connection — a nil
dereference panic.  Later errors return from the closure, abandoning the
tick. -/
def runMetricsTick (mult : ℚ) (d : PollDevice) : TickResult :=
  if !d.dialOk then .panicked
  else if !d.skipOk then .abandoned
  else
    match getPowerGo mult d.powerStream with
    | .error _ => .abandoned
    | .ok power =>
      match chompAllStrings d.wlStream with
      | .error _ => .abandoned
      | .ok wavelengths => .completed wavelengths power

/-! ### The schedule runner: runConditions -/

/-- One data row of the conditions file, after the external fuzzy timestamp
parse: the resolved due instant (`none` when the timestamp failed to parse and
the row is skipped with a logged warning) and the comma-split fields. -/
structure Row where
  due : Option Nat
  fields : List String

/-- The retry loop around runStuff: up to `fuel` (10 in the source) calls,
stopping at the first successful one; returns the list of calls made, each as
the entry time and fields it was invoked with, or `none` when a call
panicked. -/
def runRetry (stuff : List String → Option Bool) (t : Nat) (fs : List String) :
    Nat → Option (List (Nat × List String))
  | 0 => some []
  | fuel + 1 =>
    match stuff fs with
    | none => none
    | some true => some [(t, fs)]
    | some false =>
      match runRetry stuff t fs fuel with
      | none => none
      | some tr => some ((t, fs) :: tr)

/-- The row loop of runConditions.  Rows due strictly before the current
instant are remembered (last one wins) and skipped.  At the first row due now
or later: on the very first such row the remembered past-due row — Go's zero
values, time zero and a nil field slice, when none was remembered — is
executed as a catch-up, then the loop sleeps until the due instant (the
current instant becomes the due instant) and executes the row; afterwards the
first-run flag is off.  The result is the list of runStuff calls in order, or
`none` when any call panicked. -/
def condLoop (stuff : List String → Option Bool) :
    List Row → Nat → Bool → Option (Nat × List String) →
    Option (List (Nat × List String))
  | [], _, _, _ => some []
  | r :: rest, now, firstRun, last =>
    match r.due with
    | none => condLoop stuff rest now firstRun last
    | some t =>
      if t < now then condLoop stuff rest now firstRun (some (t, r.fields))
      else
        match (if firstRun then
                 match last with
                 | some lt => runRetry stuff lt.1 lt.2 10
                 | none => runRetry stuff 0 [] 10
               else some []) with
        | none => none
        | some ct =>
          match runRetry stuff t r.fields 10 with
          | none => none
          | some et =>
            match condLoop stuff rest t false last with
            | none => none
            | some tr => some (ct ++ et ++ tr)

/-- Model of runConditions: the first line of the file is a header and is
skipped, then the row loop runs with the first-run flag set and nothing
remembered. -/
def runConditionsGo (stuff : List String → Option Bool) (rows : List Row)
    (now : Nat) : Option (List (Nat × List String)) :=
  condLoop stuff (rows.drop 1) now true none

/-! ### Helper lemmas -/

/-- On a device and configuration where every interaction succeeds, a
runStuff call on a row with at least four columns returns true. -/
theorem stuffOf_demoEnv (f : List String) (h : 4 ≤ f.length) :
    stuffOf demoEnv f = some true := by
  have hwl : chompAllStrings "getWl OK 400 420 660\n>"
      = Except.ok ["OK", "400", "420", "660"] := rfl
  have hset : execCommand "setWlsRelPower OK\n>"
      = Except.ok "setWlsRelPower OK\n>" := rfl
  unfold stuffOf runStuffGo
  rw [if_neg (by omega)]
  simp [demoEnv, hwl, hset]

/-- The formatter loop copies text without a percent sign verbatim. -/
theorem fmtRun_no_percent (fuel : Nat) (cs : List Char) (h : '%' ∉ cs) :
    fmtRun fuel cs = cs := by
  induction fuel generalizing cs with
  | zero => rfl
  | succ fuel ih =>
    cases cs with
    | nil => rfl
    | cons c rest =>
      have hc : (c == '%') = false := by
        simp only [beq_eq_false_iff_ne, ne_eq]
        intro hceq
        exact h (hceq ▸ List.mem_cons_self c rest)
      have hr : '%' ∉ rest := fun hm => h (List.mem_cons_of_mem c hm)
      simp only [fmtRun, hc, Bool.false_eq_true, if_false, List.cons.injEq, true_and]
      exact ih rest hr

/-- fmt.Errorf with no operands is the identity on a message without a
percent sign. -/
theorem errorfNoArgs_no_percent (s : String) (h : '%' ∉ s.toList) :
    errorfNoArgs s = s := by
  unfold errorfNoArgs
  rw [fmtRun_no_percent _ _ h]
  rfl

/-- parseIntTok succeeds on every token whose numeric value fits, so the
parsing loop of chompAllInts maps cleanly over such a token list. -/
theorem mapParseInts_all_fit (ts : List String)
    (h : ∀ t ∈ ts, natOfDigits t.toList ≤ int64Max) :
    mapParseInts ts = .ok (ts.map (fun t => (natOfDigits t.toList : Int))) := by
  induction ts with
  | nil => rfl
  | cons t ts ih =>
    have ht := h t (List.mem_cons_self t ts)
    simp only [mapParseInts, parseIntTok, if_pos ht,
      ih (fun x hx => h x (List.mem_cons_of_mem t hx)), List.map_cons]

/-! ### Claim C2: value encoding -/

/-- C2 counterexample: the claim says the integer sent per channel is
round(v * s) clamped into the device range, but the Go conversion int(x)
truncates; at v = 3/2 and s = 1 the code sends 1 while rounding-then-clamping
gives 2. -/
theorem c2_counterexample :
    goEncode 1 (3/2) = 1 ∧ encodeSpec 1 (3/2) = 2 ∧ (1 : ℤ) ≠ 2 := by
  refine ⟨?_, ?_, by decide⟩
  · norm_num [goEncode, minMax, ratTruncToInt]; decide
  · norm_num [encodeSpec, minMax, round_eq]

/-- C2 amended: for every intensity value and scale factor the integer sent
for the channel equals trunc(v * s) — truncation toward zero, not rounding —
clamped into the closed range 0..1000; the encoding is total (never errors)
and every component of the vector setMany sends lies in that range. -/
theorem c2_trunc_then_clamp (mult : ℚ) (values : List ℚ) :
    setManyVec mult values
      = values.map (fun x => min (max (ratTruncToInt (x * mult)) 0) 1000) ∧
    ∀ z ∈ setManyVec mult values, 0 ≤ z ∧ z ≤ 1000 := by
  refine ⟨rfl, ?_⟩
  intro z hz
  simp only [setManyVec, List.mem_map] at hz
  obtain ⟨x, -, rfl⟩ := hz
  unfold goEncode minMax
  omega

/-- C2 witness: the amended theorem at a concrete value and scale. -/
theorem c2_witness : 0 ≤ goEncode 10 (3/2) ∧ goEncode 10 (3/2) ≤ 1000 :=
  (c2_trunc_then_clamp 10 [3/2]).2 (goEncode 10 (3/2)) (by simp [setManyVec])

/-! ### Claim C3: getAllRelPower parsing -/

/-- C3 counterexample: on a successful response whose integer tokens are 100,
200, 300, chompAllInts returns only 200 and 300 — the echoed command name
contains no digit, so the index-1 slice of the integer-token match list drops
the first power value, not the echo. -/
theorem c3_counterexample :
    chompAllInts "getAllRelPower OK 100 200 300\n>" = .ok [200, 300] ∧
    (Except.ok [200, 300] : Except GoErr (List Int)) ≠ .ok [100, 200, 300] :=
  ⟨rfl, fun h => absurd (Except.ok.inj h) (by decide)⟩

/-- C3 amended: for every successful getAllRelPower response the values
returned are the decimal integer tokens of the response with the first
integer token stripped; since the echoed command name contains no digits it
is not among those tokens, so what is lost is the first power value. -/
theorem c3_first_int_token_dropped (stream data : String)
    (hx : execCommand stream = .ok data)
    (hne : intTokens data ≠ [])
    (hfit : ∀ t ∈ (intTokens data).drop 1, natOfDigits t.toList ≤ int64Max) :
    chompAllInts stream
      = .ok (((intTokens data).drop 1).map (fun t => (natOfDigits t.toList : Int))) := by
  rcases hti : intTokens data with - | ⟨t, rest⟩
  · exact absurd hti hne
  · rw [hti] at hfit
    simp only [List.drop_succ_cons, List.drop_zero] at hfit ⊢
    simp only [chompAllInts, hx, hti]
    exact mapParseInts_all_fit rest hfit

/-- C3 witness: the amended theorem on a concrete successful response. -/
theorem c3_witness :
    chompAllInts "getAllRelPower OK 7 8\n>"
      = .ok (((intTokens "getAllRelPower OK 7 8\n>").drop 1).map
          (fun t => (natOfDigits t.toList : Int))) :=
  c3_first_int_token_dropped _ _ rfl (by decide) (by decide)

/-! ### Claim C4: getWl parsing -/

/-- C4 counterexample: on the payload the claim describes, the exchange reads
only up to the first prompt character, finds no success token in that chunk,
and errors — it does not return the labels at all. -/
theorem c4_counterexample :
    chompAllStrings "getWl> OK a b c >" = .error (.protocolError "getWl>") ∧
    (Except.error (GoErr.protocolError "getWl>") : Except GoErr (List String))
      ≠ .ok ["a", "b", "c"] :=
  ⟨rfl, fun h => Except.noConfusion h⟩

/-- C4 amended: for a getWl response stream whose prompt appears only at the
end, the parser returns all word tokens of the chunk after the first: the
echoed command name is dropped, but the success token that follows it is kept
among the returned labels; the shape of the original claim, with a prompt
directly after the echo, instead fails the whole exchange. -/
theorem c4_echo_token_dropped (stream data : String)
    (hx : execCommand stream = .ok data)
    (hne : wordTokens data ≠ []) :
    chompAllStrings stream = .ok ((wordTokens data).drop 1) := by
  rcases hti : wordTokens data with - | ⟨t, rest⟩
  · exact absurd hti hne
  · simp only [chompAllStrings, hx, hti, List.drop_succ_cons, List.drop_zero]

/-- C4 witness: the amended theorem on a concrete stream, where the returned
labels keep the success token. -/
theorem c4_witness :
    chompAllStrings "getWl OK a b c >" = .ok ((wordTokens "getWl OK a b c >").drop 1) ∧
    (wordTokens "getWl OK a b c >").drop 1 = ["OK", "a", "b", "c"] :=
  ⟨c4_echo_token_dropped _ _ rfl (by decide), rfl⟩

/-! ### Claim C5: non-success responses -/

/-- C5 counterexample: fmt.Errorf interprets the trimmed response as a format
string, so a response containing a percent sign yields a message that is not
the trimmed response: the percent directive of this chunk is rewritten to the
missing-operand marker. -/
theorem c5_counterexample :
    execCommand "ERR 50%RH\n>"
      = .error (.protocolError "ERR 50%!R(MISSING)H\n>") ∧
    goTrim "ERR 50%RH\n>" = "ERR 50%RH\n>" ∧
    ("ERR 50%!R(MISSING)H\n>" : String) ≠ "ERR 50%RH\n>" :=
  ⟨rfl, rfl, by decide⟩

/-- C5 amended: every exchange whose response chunk arrives (the read finds a
prompt) but lacks the success token returns an error; its message is the
trimmed chunk interpreted by fmt as a format string with no operands, which
equals the trimmed chunk itself exactly when the chunk contains no percent
character. -/
theorem c5_error_formatted_trimmed_response (stream datad : String)
    (hread : readToPrompt stream = some datad)
    (hok : hasOK datad.toList = false) :
    execCommand stream = .error (.protocolError (errorfNoArgs (goTrim datad))) ∧
    ('%' ∉ (goTrim datad).toList →
      execCommand stream = .error (.protocolError (goTrim datad))) := by
  have h1 : execCommand stream
      = .error (.protocolError (errorfNoArgs (goTrim datad))) := by
    simp only [String.toList] at hok
    unfold execCommand
    rw [hread]
    simp [String.toList, hok]
  exact ⟨h1, fun hnp => by rw [h1, errorfNoArgs_no_percent _ hnp]⟩

/-- C5 witness: a concrete percent-free response without the success token,
whose error message is exactly the trimmed response. -/
theorem c5_witness :
    execCommand "setWlsRelPower 1001\nERR\n>"
      = .error (.protocolError (goTrim "setWlsRelPower 1001\nERR\n>")) :=
  (c5_error_formatted_trimmed_response "setWlsRelPower 1001\nERR\n>"
    "setWlsRelPower 1001\nERR\n>" rfl rfl).2 (by decide)

/-! ### Claim C10: telemetry length mismatch -/

/-- C10: with metrics enabled, a forwarding call whose label and value
sequences differ in length returns an error and writes no measurement,
whatever the client-creation outcome and tags. -/
theorem c10_length_mismatch_no_write (udpOk : Bool) (host group user : String)
    (wavelengths : List String) (lightValues : List ℚ)
    (hlen : wavelengths.length ≠ lightValues.length) :
    (writeMetrics false udpOk host group user wavelengths lightValues).1 = [] ∧
    (writeMetrics false udpOk host group user wavelengths lightValues).2 ≠ none := by
  cases udpOk <;> simp [writeMetrics, hlen]

/-- C10 witness: one label, no values. -/
theorem c10_witness :
    (writeMetrics false true "" "" "" ["450"] []).1 = [] ∧
    (writeMetrics false true "" "" "" ["450"] []).2 ≠ none :=
  c10_length_mismatch_no_write true "" "" "" ["450"] [] (by decide)

/-! ### Claim C6: first pass with no past-due entry -/

/-- C6: the claim says that when the current instant precedes every entry the
runner performs no catch-up and just sleeps until the first future entry —
but the Go code runs the catch-up unconditionally on the first future entry,
passing the nil remembered fields, and runStuff panics slicing four columns
off the nil slice.  Here, with one future row due at 5 and the clock at 3 on
an always-succeeding device, the whole run panics. -/
theorem c6_all_future_catchup_panics :
    runConditionsGo (stuffOf demoEnv)
      [⟨none, ["header"]⟩, ⟨some 5, ["t", "a", "b", "c", "50"]⟩] 3 = none := rfl

/-! ### Claim C7: poll tick on connect failure -/

/-- C7: the claim says a connect failure abandons only the tick, but the Go
closure logs the dial error without returning and then uses the nil
connection, so the tick panics (killing the process) instead of being
abandoned; later protocol errors do abandon the tick. -/
theorem c7_connect_failure_panics :
    runMetricsTick 10
      ⟨false, true, "getAllRelPower OK 1 2\n>", "getWl OK 400 420\n>"⟩
      = .panicked := rfl

/-! ### Claim C8: label/value count mismatch -/

/-- C8 counterexample: with four wavelength labels and two target values the
vector is truncated but no warning is logged — the warning fires only when
the value count exceeds the label count, not in both directions. -/
theorem c8_counterexample :
    (runStuffGo demoEnv ["t", "a", "b", "c", "10", "20"]).map StuffOutcome.warned
      = some false ∧
    chompAllStrings demoEnv.wlStream = .ok ["OK", "400", "420", "660"] ∧
    (["OK", "400", "420", "660"] : List String).length
      ≠ (["t", "a", "b", "c", "10", "20"].drop 4).length :=
  ⟨rfl, rfl, by decide⟩

/-- C8 amended: the vector sent to the device is always truncated to the
shorter of the label count and the value count, but the mismatch warning is
logged only when the value count exceeds the label count. -/
theorem c8_truncates_warns_one_direction (env : StuffEnv)
    (lineSplit wls : List String) (h4 : 4 ≤ lineSplit.length)
    (hd : env.dialOk = true) (hs : env.skipOk = true)
    (hwl : chompAllStrings env.wlStream = .ok wls) :
    ∃ o v, runStuffGo env lineSplit = some o ∧ o.sent = some v ∧
      v.length = min wls.length (lineSplit.length - 4) ∧
      (o.warned = true ↔ wls.length < lineSplit.length - 4) := by
  unfold runStuffGo
  rw [if_neg (by omega)]
  simp only [hd, hs, hwl, Bool.not_true, Bool.false_eq_true, if_false]
  rcases hset : execCommand env.setStream with e | r <;>
    · refine ⟨_, _, rfl, rfl, ?_, ?_⟩
      · simp only [setManyVec, List.length_map, List.length_take, List.length_drop]
        omega
      · simp only [List.length_map, List.length_drop, bne_iff_ne, ne_eq]
        omega

/-- C8 witness: five values against the four demo labels — truncated and
warned. -/
theorem c8_witness :
    ∃ o v, runStuffGo demoEnv ["t", "a", "b", "c", "1", "2", "3", "4", "5"]
        = some o ∧ o.sent = some v ∧
      v.length = min (["OK", "400", "420", "660"] : List String).length
        ((["t", "a", "b", "c", "1", "2", "3", "4", "5"] : List String).length - 4) ∧
      (o.warned = true ↔ (["OK", "400", "420", "660"] : List String).length
        < (["t", "a", "b", "c", "1", "2", "3", "4", "5"] : List String).length - 4) :=
  c8_truncates_warns_one_direction demoEnv _ _ (by decide) rfl rfl rfl

/-! ### Claim C9: telemetry failure never fails the entry -/

/-- C9: when the device phase of a schedule-entry execution succeeds, the
call reports success even when every one of the five telemetry attempts
fails — telemetry outcomes never reach the returned Bool. -/
theorem c9_telemetry_failure_not_fatal (env : StuffEnv)
    (lineSplit wls : List String) (resp : String) (h4 : 4 ≤ lineSplit.length)
    (hd : env.dialOk = true) (hs : env.skipOk = true)
    (hwl : chompAllStrings env.wlStream = .ok wls)
    (hset : execCommand env.setStream = .ok resp)
    (_hudp : ∀ n, env.udpOk n = false) :
    (runStuffGo env lineSplit).map StuffOutcome.ok = some true := by
  unfold runStuffGo
  rw [if_neg (by omega)]
  simp [hd, hs, hwl, hset]

/-- C9 witness: the always-failing-telemetry device still reports success. -/
theorem c9_witness :
    (runStuffGo demoFailEnv ["t", "a", "b", "c", "50"]).map StuffOutcome.ok
      = some true :=
  c9_telemetry_failure_not_fatal demoFailEnv _ ["OK", "400", "420", "660"]
    "setWlsRelPower OK\n>" (by decide) rfl rfl rfl rfl (fun _ => rfl)

/-! ### Claim C1: catch-up then follow -/

/-- C1: for a schedule with rows due at T1 < T2 < T3 and a start instant
strictly between T1 and T2, on a device where every execution succeeds, the
runner executes T1's row first (the catch-up), then T2's after sleeping, then
T3's; T1's and T2's rows each appear exactly once in the execution trace. -/
theorem c1_catchup_then_follow (hdr : Row) (T1 T2 T3 now : Nat)
    (f1 f2 f3 : List String)
    (h1 : T1 < now) (h2 : now < T2) (h3 : T2 < T3)
    (hl1 : 4 ≤ f1.length) (hl2 : 4 ≤ f2.length) (hl3 : 4 ≤ f3.length) :
    runConditionsGo (stuffOf demoEnv)
      [hdr, ⟨some T1, f1⟩, ⟨some T2, f2⟩, ⟨some T3, f3⟩] now
      = some [(T1, f1), (T2, f2), (T3, f3)] ∧
    ([(T1, f1), (T2, f2), (T3, f3)] : List (Nat × List String)).count (T1, f1) = 1 ∧
    ([(T1, f1), (T2, f2), (T3, f3)] : List (Nat × List String)).count (T2, f2) = 1 := by
  have hs1 := stuffOf_demoEnv f1 hl1
  have hs2 := stuffOf_demoEnv f2 hl2
  have hs3 := stuffOf_demoEnv f3 hl3
  have hn2 : ¬ T2 < now := by omega
  have hn3 : ¬ T3 < T2 := by omega
  refine ⟨?_, ?_, ?_⟩
  · simp [runConditionsGo, condLoop, runRetry, hs1, hs2, hs3, h1, hn2, hn3]
  · have d12 : ¬ ((T1, f1) : Nat × List String) = (T2, f2) :=
      fun hc => absurd (congrArg Prod.fst hc) (by simp; omega)
    have d13 : ¬ ((T1, f1) : Nat × List String) = (T3, f3) :=
      fun hc => absurd (congrArg Prod.fst hc) (by simp; omega)
    simp [List.count_cons, d12, d13]
  · have d21 : ¬ ((T2, f2) : Nat × List String) = (T1, f1) :=
      fun hc => absurd (congrArg Prod.fst hc) (by simp; omega)
    have d23 : ¬ ((T2, f2) : Nat × List String) = (T3, f3) :=
      fun hc => absurd (congrArg Prod.fst hc) (by simp; omega)
    simp [List.count_cons, d21, d23]

/-- C1 witness: a concrete three-row schedule started between the first two
due instants. -/
theorem c1_witness :
    runConditionsGo (stuffOf demoEnv)
      [⟨none, ["header"]⟩, ⟨some 1, ["t", "a", "b", "c", "10"]⟩,
       ⟨some 3, ["t", "a", "b", "c", "20"]⟩, ⟨some 4, ["t", "a", "b", "c", "30"]⟩] 2
      = some [(1, ["t", "a", "b", "c", "10"]), (3, ["t", "a", "b", "c", "20"]),
              (4, ["t", "a", "b", "c", "30"])] ∧
    ([(1, ["t", "a", "b", "c", "10"]), (3, ["t", "a", "b", "c", "20"]),
      (4, ["t", "a", "b", "c", "30"])] : List (Nat × List String)).count
        (1, ["t", "a", "b", "c", "10"]) = 1 ∧
    ([(1, ["t", "a", "b", "c", "10"]), (3, ["t", "a", "b", "c", "20"]),
      (4, ["t", "a", "b", "c", "30"])] : List (Nat × List String)).count
        (3, ["t", "a", "b", "c", "20"]) = 1 :=
  c1_catchup_then_follow ⟨none, ["header"]⟩ 1 3 4 2 _ _ _
    (by decide) (by decide) (by decide) (by decide) (by decide) (by decide)

end Helio

